import Mathlib

/-
Verification of the VawcTracker case-management backend.

The development shallowly embeds the persistence layer of the repository:
the in-memory store (server/storage.ts, class MemStorage), the relational
store (server/db-storage.ts, class DBStorage), and the REST route handlers
(the registerRoutes file that validates payloads and calls the storage
layer).  Timestamps are modelled as natural numbers (milliseconds since the
epoch); the JavaScript Date constructor calls that appear in hardcoded
sample data are modelled by an injective encoding jsDate.  JavaScript Map
objects are modelled as insertion-ordered association lists (Map.set on an
existing key updates the value in place, otherwise appends; Map.values
yields values in insertion order), and database tables as insertion-ordered
lists of rows with a serial id counter.  The bcrypt comparison is an
external effect and is abstracted as an arbitrary total boolean function
passed as a parameter.
-/

namespace Vawc

/-- Encoding of a JavaScript Date literal new Date(y, m, d); only equality
and relative order of timestamps matter to the embedded code, so any
injective encoding is adequate. -/
def jsDate (y m d : Nat) : Nat := (y * 12 + m) * 32 + d

/-- A row of the users table (shared/schema.ts, pgTable users). -/
structure User where
  id : Nat
  username : String
  password : String
  fullName : String
  position : Option String
  office : Option String
  role : String
  createdAt : Nat
deriving DecidableEq, Repr

/-- A row of the cases table (shared/schema.ts, pgTable cases, current
generation).  The updatedAt field is a column of the earlier schema
generation that MemStorage still writes at runtime on create and update;
DBStorage never writes it. -/
structure Case where
  id : Nat
  victimName : String
  victimAge : Option Nat
  victimGender : Option String
  barangay : Option String
  incidentDate : Nat
  incidentType : String
  incidentLocation : Option String
  perpetratorName : String
  perpetratorRelationship : Option String
  encoderName : String
  status : String
  priority : Option String
  caseNotes : Option String
  createdAt : Nat
  updatedAt : Nat
deriving DecidableEq, Repr

/-- A row of the services table. -/
structure Service where
  id : Nat
  type : String
  dateProvided : Nat
  provider : String
  notes : Option String
  caseId : Nat
  createdAt : Nat
deriving DecidableEq, Repr

/-- A row of the notes table. -/
structure Note where
  id : Nat
  content : String
  authorId : Nat
  caseId : Nat
  createdAt : Nat
deriving DecidableEq, Repr

/-- Insertion-ordered association list modelling a JavaScript Map. -/
def mapGet (m : List (Nat × α)) (k : Nat) : Option α :=
  (m.find? (fun e => e.1 == k)).map (fun e => e.2)

/-- Map.set: update in place when the key exists, otherwise append. -/
def mapSet (m : List (Nat × α)) (k : Nat) (v : α) : List (Nat × α) :=
  if m.any (fun e => e.1 == k) then
    m.map (fun e => if e.1 == k then (k, v) else e)
  else m ++ [(k, v)]

/-- Map.delete for a single key. -/
def mapDelete (m : List (Nat × α)) (k : Nat) : List (Nat × α) :=
  m.filter (fun e => e.1 != k)

/-- Map.values in insertion order. -/
def mapValues (m : List (Nat × α)) : List α := m.map (fun e => e.2)

/-- State of the in-memory store (MemStorage private fields). -/
structure MemState where
  users : List (Nat × User)
  cases : List (Nat × Case)
  services : List (Nat × Service)
  notes : List (Nat × Note)
  currentUserId : Nat
  currentCaseId : Nat
  currentServiceId : Nat
  currentNoteId : Nat
deriving DecidableEq, Repr

/-- State of the relational store: the four tables plus serial counters. -/
structure DbState where
  users : List User
  cases : List Case
  services : List Service
  notes : List Note
  nextUserId : Nat
  nextCaseId : Nat
  nextServiceId : Nat
  nextNoteId : Nat
deriving DecidableEq, Repr

/-- Comparator used on cases: newest createdAt first (the comparator
b.createdAt - a.createdAt of getCases, and ORDER BY created_at DESC). -/
def caseNewerFirst (a b : Case) : Prop := b.createdAt ≤ a.createdAt

instance : DecidableRel caseNewerFirst := fun a b => Nat.decLe b.createdAt a.createdAt

instance : IsTotal Case caseNewerFirst := ⟨fun a b => Nat.le_total b.createdAt a.createdAt⟩

instance : IsTrans Case caseNewerFirst := ⟨fun _ _ _ h1 h2 => Nat.le_trans h2 h1⟩

/-- Comparator used on services: newest dateProvided first. -/
def svcNewerFirst (a b : Service) : Prop := b.dateProvided ≤ a.dateProvided

instance : DecidableRel svcNewerFirst := fun a b => Nat.decLe b.dateProvided a.dateProvided

instance : IsTotal Service svcNewerFirst := ⟨fun a b => Nat.le_total b.dateProvided a.dateProvided⟩

instance : IsTrans Service svcNewerFirst := ⟨fun _ _ _ h1 h2 => Nat.le_trans h2 h1⟩

/-- Comparator used on notes: newest createdAt first. -/
def noteNewerFirst (a b : Note) : Prop := b.createdAt ≤ a.createdAt

instance : DecidableRel noteNewerFirst := fun a b => Nat.decLe b.createdAt a.createdAt

instance : IsTotal Note noteNewerFirst := ⟨fun a b => Nat.le_total b.createdAt a.createdAt⟩

instance : IsTrans Note noteNewerFirst := ⟨fun _ _ _ h1 h2 => Nat.le_trans h2 h1⟩

/-- JavaScript or-else on a possibly absent string: x || d is d when x is
undefined or the empty string (the empty string is falsy). -/
def jsOrString (v : Option String) (d : String) : String :=
  match v with
  | none => d
  | some s => if s == "" then d else s

/-- JavaScript or-else on a possibly absent number: x || d is d when x is
undefined or zero (zero is falsy). -/
def jsOrNat (v : Option Nat) (d : Nat) : Nat :=
  match v with
  | none => d
  | some n => if n == 0 then d else n

/-- JavaScript x || null on a possibly absent string field. -/
def jsStrOrNull (v : Option String) : Option String :=
  match v with
  | none => none
  | some s => if s == "" then none else some s

/-- JavaScript x || null on a possibly absent numeric field. -/
def jsNatOrNull (v : Option Nat) : Option Nat :=
  match v with
  | none => none
  | some n => if n == 0 then none else some n

/-- The author projection attached to a note in CaseWithDetails. -/
structure AuthorRef where
  id : Nat
  fullName : String
deriving DecidableEq, Repr

/-- A note expanded with its resolved author. -/
structure NoteWithAuthor where
  note : Note
  author : AuthorRef
deriving DecidableEq, Repr

/-- CaseWithDetails: a case expanded with its services and notes. -/
structure CaseWithDetails where
  caseRow : Case
  services : List Service
  notes : List NoteWithAuthor
deriving DecidableEq, Repr

/-- One entry of the staff-activity feed of DashboardStats. -/
structure StaffActivity where
  authorId : Nat
  authorName : String
  action : String
  timestamp : Nat
  caseId : Nat
  victimName : Option String
deriving DecidableEq, Repr

/-- The value returned by getDashboardStats in both implementations. -/
structure DashboardStats where
  totalCases : Nat
  activeCases : Nat
  pendingCases : Nat
  closedCases : Nat
  totalCasesChange : String
  activeCasesChange : String
  pendingCasesChange : String
  closedCasesChange : String
  recentCases : List CaseWithDetails
  staffActivities : List StaffActivity
deriving DecidableEq, Repr

/-- Resolution of a possibly missing author record into the author
projection: author.id || 0 and author.fullName || Unknown, with the
JavaScript falsy semantics of the source. -/
def authorRefOf (u : Option User) : AuthorRef :=
  { id := jsOrNat (u.map (fun x => x.id)) 0
    fullName := jsOrString (u.map (fun x => x.fullName)) "Unknown" }

/-- Insert payload for a case (InsertCase of the current schema). -/
structure InsertCase where
  victimName : String
  victimAge : Option Nat
  victimGender : Option String
  barangay : Option String
  incidentDate : Nat
  incidentType : String
  incidentLocation : Option String
  perpetratorName : String
  perpetratorRelationship : Option String
  encoderName : String
  status : String
  priority : Option String
  caseNotes : Option String
deriving DecidableEq, Repr

/-- Insert payload for a service. -/
structure InsertService where
  type : String
  dateProvided : Nat
  provider : String
  notes : Option String
  caseId : Nat
deriving DecidableEq, Repr

/-- Insert payload for a note. -/
structure InsertNote where
  content : String
  authorId : Nat
  caseId : Nat
deriving DecidableEq, Repr

/-- Partial case-update payload, Partial of InsertCase at runtime: the PUT
handler forwards the raw request body (minus services, otherServices and
caseNotes), so an id or createdAt key present in the body reaches the
storage layer and takes part in the object spread.  The updatedAt key is
irrelevant because MemStorage overwrites updatedAt after the spread and the
current schema has no such column for DBStorage. -/
structure CasePatch where
  id : Option Nat
  victimName : Option String
  victimAge : Option (Option Nat)
  victimGender : Option (Option String)
  barangay : Option (Option String)
  incidentDate : Option Nat
  incidentType : Option String
  incidentLocation : Option (Option String)
  perpetratorName : Option String
  perpetratorRelationship : Option (Option String)
  encoderName : Option String
  status : Option String
  priority : Option (Option String)
  caseNotes : Option (Option String)
  createdAt : Option Nat
deriving DecidableEq, Repr

/-- The patch with no field present. -/
def emptyPatch : CasePatch :=
  { id := none, victimName := none, victimAge := none, victimGender := none
    barangay := none, incidentDate := none, incidentType := none
    incidentLocation := none, perpetratorName := none
    perpetratorRelationship := none, encoderName := none, status := none
    priority := none, caseNotes := none, createdAt := none }

/-- Object spread of a partial payload over an existing case, the
expression in MemStorage.updateCase before the updatedAt overwrite; it is
also exactly the column set applied by the drizzle update of
DBStorage.updateCase (which has no updatedAt column, so updatedAt is kept). -/
def mergeCase (c : Case) (p : CasePatch) : Case :=
  { id := p.id.getD c.id
    victimName := p.victimName.getD c.victimName
    victimAge := p.victimAge.getD c.victimAge
    victimGender := p.victimGender.getD c.victimGender
    barangay := p.barangay.getD c.barangay
    incidentDate := p.incidentDate.getD c.incidentDate
    incidentType := p.incidentType.getD c.incidentType
    incidentLocation := p.incidentLocation.getD c.incidentLocation
    perpetratorName := p.perpetratorName.getD c.perpetratorName
    perpetratorRelationship := p.perpetratorRelationship.getD c.perpetratorRelationship
    encoderName := p.encoderName.getD c.encoderName
    status := p.status.getD c.status
    priority := p.priority.getD c.priority
    caseNotes := p.caseNotes.getD c.caseNotes
    createdAt := p.createdAt.getD c.createdAt
    updatedAt := c.updatedAt }

/-- MemStorage.getUser. -/
def memGetUser (st : MemState) (uid : Nat) : Option User := mapGet st.users uid

/-- MemStorage.getUserByUsername. -/
def memGetUserByUsername (st : MemState) (username : String) : Option User :=
  (mapValues st.users).find? (fun u => u.username == username)

/-- MemStorage.validateUser; cmp abstracts bcrypt.compare, which resolves
to a boolean for any password against any stored hash. -/
def memValidateUser (cmp : String → String → Bool) (st : MemState)
    (username password : String) : Option User :=
  match memGetUserByUsername st username with
  | none => none
  | some user => if cmp password user.password then some user else none

/-- MemStorage.createCase: assign the counter id, stamp createdAt and
updatedAt with now, store under the id. -/
def memCreateCase (st : MemState) (d : InsertCase) (now : Nat) : Case × MemState :=
  let i := st.currentCaseId
  let c : Case :=
    { id := i, victimName := d.victimName, victimAge := d.victimAge
      victimGender := d.victimGender, barangay := d.barangay
      incidentDate := d.incidentDate, incidentType := d.incidentType
      incidentLocation := d.incidentLocation
      perpetratorName := d.perpetratorName
      perpetratorRelationship := d.perpetratorRelationship
      encoderName := d.encoderName, status := d.status
      priority := d.priority, caseNotes := d.caseNotes
      createdAt := now, updatedAt := now }
  (c, { st with cases := mapSet st.cases i c, currentCaseId := i + 1 })

/-- MemStorage.getCase: lookup by map key. -/
def memGetCase (st : MemState) (cid : Nat) : Option Case := mapGet st.cases cid

/-- MemStorage.getCases: all values sorted newest createdAt first. -/
def memGetCases (st : MemState) : List Case :=
  List.insertionSort caseNewerFirst (mapValues st.cases)

/-- MemStorage.updateCase: spread the payload over the stored case,
overwrite updatedAt with now, store the result back under the key cid. -/
def memUpdateCase (st : MemState) (cid : Nat) (p : CasePatch) (now : Nat) :
    Option Case × MemState :=
  match mapGet st.cases cid with
  | none => (none, st)
  | some c =>
    let c2 := { mergeCase c p with updatedAt := now }
    (some c2, { st with cases := mapSet st.cases cid c2 })

/-- MemStorage.deleteCase: remove the case, then every service and note
whose caseId matches. -/
def memDeleteCase (st : MemState) (cid : Nat) : Bool × MemState :=
  if (mapGet st.cases cid).isSome then
    (true,
      { st with
        cases := mapDelete st.cases cid
        services := st.services.filter (fun e => e.2.caseId != cid)
        notes := st.notes.filter (fun e => e.2.caseId != cid) })
  else (false, st)

/-- MemStorage.addService. -/
def memAddService (st : MemState) (d : InsertService) (now : Nat) : Service × MemState :=
  let i := st.currentServiceId
  let s : Service :=
    { id := i, type := d.type, dateProvided := d.dateProvided
      provider := d.provider, notes := d.notes, caseId := d.caseId
      createdAt := now }
  (s, { st with services := mapSet st.services i s, currentServiceId := i + 1 })

/-- MemStorage.getCaseServices: filter by caseId, newest dateProvided first. -/
def memGetCaseServices (st : MemState) (cid : Nat) : List Service :=
  List.insertionSort svcNewerFirst
    ((mapValues st.services).filter (fun s => s.caseId == cid))

/-- MemStorage.addNote. -/
def memAddNote (st : MemState) (d : InsertNote) (now : Nat) : Note × MemState :=
  let i := st.currentNoteId
  let n : Note :=
    { id := i, content := d.content, authorId := d.authorId
      caseId := d.caseId, createdAt := now }
  (n, { st with notes := mapSet st.notes i n, currentNoteId := i + 1 })

/-- MemStorage.getCaseNotes: filter by caseId, newest createdAt first. -/
def memGetCaseNotes (st : MemState) (cid : Nat) : List Note :=
  List.insertionSort noteNewerFirst
    ((mapValues st.notes).filter (fun n => n.caseId == cid))

/-- MemStorage.getCaseWithDetails: the case plus its sorted services and
its sorted notes, each note annotated with its resolved author. -/
def memGetCaseWithDetails (st : MemState) (cid : Nat) : Option CaseWithDetails :=
  match memGetCase st cid with
  | none => none
  | some c =>
    some
      { caseRow := c
        services := memGetCaseServices st cid
        notes :=
          (memGetCaseNotes st cid).map (fun n =>
            { note := n, author := authorRefOf (memGetUser st n.authorId) }) }

/-- The six staff-activity entries hardcoded in MemStorage.getDashboardStats. -/
def memSampleStaffActivities : List StaffActivity :=
  [ { authorId := 1, authorName := "Admin User", action := "Created new case"
      timestamp := jsDate 2023 11 16, caseId := 1, victimName := some "Maria Santos" }
  , { authorId := 2, authorName := "Juan Dela Cruz", action := "Added legal assistance service"
      timestamp := jsDate 2023 11 12, caseId := 2, victimName := some "Ana Reyes" }
  , { authorId := 3, authorName := "Rose Manalo", action := "Closed case"
      timestamp := jsDate 2023 10 15, caseId := 3, victimName := some "Sophia Cruz" }
  , { authorId := 2, authorName := "Juan Dela Cruz", action := "Filed police report"
      timestamp := jsDate 2023 11 28, caseId := 4, victimName := some "Jasmine Martinez" }
  , { authorId := 3, authorName := "Rose Manalo", action := "Added counseling service"
      timestamp := jsDate 2023 11 22, caseId := 5, victimName := some "Lilia Mendoza" }
  , { authorId := 1, authorName := "Admin User", action := "Updated case information"
      timestamp := jsDate 2023 11 30, caseId := 1, victimName := some "Maria Santos" } ]

/-- MemStorage.getDashboardStats: counts by status, the five most recently
created cases expanded to details (dropping failed expansions), hardcoded
change percentages and the hardcoded sample staff activities. -/
def memGetDashboardStats (st : MemState) : DashboardStats :=
  let allCases := memGetCases st
  let active := allCases.filter (fun c => c.status == "active")
  let pending := allCases.filter (fun c => c.status == "pending")
  let closed := allCases.filter (fun c => c.status == "closed")
  let recent := (List.insertionSort caseNewerFirst allCases).take 5
  let detailed := recent.filterMap (fun c => memGetCaseWithDetails st c.id)
  { totalCases := allCases.length
    activeCases := active.length
    pendingCases := pending.length
    closedCases := closed.length
    totalCasesChange := "+20%"
    activeCasesChange := "+10%"
    pendingCasesChange := "+5%"
    closedCasesChange := "-2%"
    recentCases := detailed
    staffActivities := memSampleStaffActivities }

/-- DBStorage.getUser: first row with the given id. -/
def dbGetUser (st : DbState) (uid : Nat) : Option User :=
  st.users.find? (fun u => u.id == uid)

/-- DBStorage.getUserByUsername. -/
def dbGetUserByUsername (st : DbState) (username : String) : Option User :=
  st.users.find? (fun u => u.username == username)

/-- DBStorage.validateUser; the try/catch around bcrypt.compare is modelled
by cmp being a total function. -/
def dbValidateUser (cmp : String → String → Bool) (st : DbState)
    (username password : String) : Option User :=
  match dbGetUserByUsername st username with
  | none => none
  | some user => if cmp password user.password then some user else none

/-- DBStorage.getCase. -/
def dbGetCase (st : DbState) (cid : Nat) : Option Case :=
  st.cases.find? (fun c => c.id == cid)

/-- DBStorage.getCases: ORDER BY created_at DESC. -/
def dbGetCases (st : DbState) : List Case :=
  List.insertionSort caseNewerFirst st.cases

/-- DBStorage.updateCase: set exactly the supplied columns on the row with
the given id and return the updated row; absent rows give undefined and no
change. -/
def dbUpdateCase (st : DbState) (cid : Nat) (p : CasePatch) :
    Option Case × DbState :=
  match st.cases.find? (fun c => c.id == cid) with
  | none => (none, st)
  | some c =>
    (some (mergeCase c p),
      { st with cases := st.cases.map (fun x => if x.id == cid then mergeCase x p else x) })

/-- DBStorage.deleteCase: delete dependent services and notes, then the
case row. -/
def dbDeleteCase (st : DbState) (cid : Nat) : Bool × DbState :=
  match dbGetCase st cid with
  | none => (false, st)
  | some _ =>
    (true,
      { st with
        cases := st.cases.filter (fun c => c.id != cid)
        services := st.services.filter (fun s => s.caseId != cid)
        notes := st.notes.filter (fun n => n.caseId != cid) })

/-- DBStorage.addService: insert with the serial id and default createdAt.
The services table also carries a case_id foreign key, but every addService
call site in the handlers targets a case that was just created or just
updated, so its violation path is unreachable in the modelled flows and is
not represented. -/
def dbAddService (st : DbState) (d : InsertService) (now : Nat) : Service × DbState :=
  let s : Service :=
    { id := st.nextServiceId, type := d.type, dateProvided := d.dateProvided
      provider := d.provider, notes := d.notes, caseId := d.caseId
      createdAt := now }
  (s, { st with services := st.services ++ [s], nextServiceId := st.nextServiceId + 1 })

/-- DBStorage.getCaseServices: WHERE case_id = cid ORDER BY date_provided DESC. -/
def dbGetCaseServices (st : DbState) (cid : Nat) : List Service :=
  List.insertionSort svcNewerFirst (st.services.filter (fun s => s.caseId == cid))

/-- DBStorage.addNote together with the engine-enforced constraints of the
notes table: the table-creation SQL (recreateDatabase and setupDatabase)
declares FOREIGN KEY (case_id) REFERENCES cases (id) and FOREIGN KEY
(author_id) REFERENCES users (id), so the INSERT succeeds only when the
referenced case and user rows exist and otherwise raises a foreign-key
violation, modelled as the error branch. -/
def dbAddNote (st : DbState) (d : InsertNote) (now : Nat) : Except String (Note × DbState) :=
  if st.cases.any (fun c => c.id == d.caseId) &&
      st.users.any (fun u => u.id == d.authorId) then
    let n : Note :=
      { id := st.nextNoteId, content := d.content, authorId := d.authorId
        caseId := d.caseId, createdAt := now }
    .ok (n, { st with notes := st.notes ++ [n], nextNoteId := st.nextNoteId + 1 })
  else .error "insert into notes violates a foreign key constraint"

/-- DBStorage.getCaseNotes: WHERE case_id = cid ORDER BY created_at DESC. -/
def dbGetCaseNotes (st : DbState) (cid : Nat) : List Note :=
  List.insertionSort noteNewerFirst (st.notes.filter (fun n => n.caseId == cid))

/-- DBStorage.getCaseWithDetails, same composition as the in-memory one. -/
def dbGetCaseWithDetails (st : DbState) (cid : Nat) : Option CaseWithDetails :=
  match dbGetCase st cid with
  | none => none
  | some c =>
    some
      { caseRow := c
        services := dbGetCaseServices st cid
        notes :=
          (dbGetCaseNotes st cid).map (fun n =>
            { note := n, author := authorRefOf (dbGetUser st n.authorId) }) }

/-- DBStorage.getDashboardStats: counts by status, five most recent cases
expanded, and the staff-activity feed derived from the five most recent
notes system-wide; note.caseId is guarded by a truthiness check before the
case lookup. -/
def dbGetDashboardStats (st : DbState) : DashboardStats :=
  let allCases := dbGetCases st
  let active := allCases.filter (fun c => c.status == "active")
  let pending := allCases.filter (fun c => c.status == "pending")
  let closed := allCases.filter (fun c => c.status == "closed")
  let recent := allCases.take 5
  let detailed := recent.filterMap (fun c => dbGetCaseWithDetails st c.id)
  let recentNotes := (List.insertionSort noteNewerFirst st.notes).take 5
  let acts := recentNotes.map (fun n =>
    let author := dbGetUser st n.authorId
    let caseItem := if n.caseId == 0 then none else dbGetCase st n.caseId
    { authorId := n.authorId
      authorName := jsOrString (author.map (fun u => u.fullName)) "Unknown"
      action := "Added case note"
      timestamp := n.createdAt
      caseId := n.caseId
      victimName := caseItem.map (fun c => c.victimName) : StaffActivity })
  { totalCases := allCases.length
    activeCases := active.length
    pendingCases := pending.length
    closedCases := closed.length
    totalCasesChange := "+20%"
    activeCasesChange := "+10%"
    pendingCasesChange := "+5%"
    closedCasesChange := "-2%"
    recentCases := detailed
    staffActivities := acts }

/-- The relational state holding exactly the rows of an in-memory state. -/
def dbStateOfMem (st : MemState) : DbState :=
  { users := mapValues st.users
    cases := mapValues st.cases
    services := mapValues st.services
    notes := mapValues st.notes
    nextUserId := st.currentUserId
    nextCaseId := st.currentCaseId
    nextServiceId := st.currentServiceId
    nextNoteId := st.currentNoteId }

/-- A raw JSON/JavaScript value as it may arrive in a request body field. -/
inductive JsVal where
  | str : String → JsVal
  | num : Int → JsVal
  | date : Nat → JsVal
  | boolean : Bool → JsVal
  | null : JsVal
deriving DecidableEq, Repr

/-- JavaScript truthiness of a value. -/
def jsTruthy : JsVal → Bool
  | .str s => s != ""
  | .num n => n != 0
  | .date _ => true
  | .boolean b => b
  | .null => false

/-- Truthiness of a possibly absent field (undefined is falsy). -/
def optTruthy : Option JsVal → Bool
  | none => false
  | some v => jsTruthy v

/-- typeof v === string on a possibly absent field. -/
def optIsString : Option JsVal → Bool
  | some (.str _) => true
  | _ => false

/-- The string carried by a field known to hold one (empty otherwise). -/
def strVal : Option JsVal → String
  | some (.str s) => s
  | _ => ""

/-- One entry of the services array of a case form payload. -/
structure ServiceSel where
  type : String
  selected : Bool
deriving DecidableEq, Repr

/-- Raw body of POST /api/cases.  The fields the handler inspects are kept
as raw JavaScript values; the fields it merely forwards to createCase are
modelled at their schema types. -/
structure CreateCaseBody where
  victimName : Option JsVal
  incidentType : Option JsVal
  perpetratorName : Option JsVal
  encoderName : Option JsVal
  status : Option JsVal
  incidentDate : Option JsVal
  victimAge : Option Nat
  victimGender : Option String
  barangay : Option String
  incidentLocation : Option String
  perpetratorRelationship : Option String
  priority : Option String
  services : Option (List ServiceSel)
  otherServices : Option String
  caseNotes : Option String
deriving Repr

/-- DBStorage.createCase: receives the same payload object as
MemStorage.createCase but rebuilds it field by field with JavaScript
or-else defaults: barangay is not among the copied fields and is dropped,
incidentType falls back to Not specified, priority to Medium, and the
optional fields to null.  The incidentDate fallback || new Date() cannot
fire on this payload type because a Date object is always truthy. -/
def dbCreateCase (st : DbState) (d : InsertCase) (now : Nat) : Case × DbState :=
  let c : Case :=
    { id := st.nextCaseId
      victimName := d.victimName
      victimAge := jsNatOrNull d.victimAge
      victimGender := jsStrOrNull d.victimGender
      barangay := none
      incidentDate := d.incidentDate
      incidentType := if d.incidentType == "" then "Not specified" else d.incidentType
      incidentLocation := jsStrOrNull d.incidentLocation
      perpetratorName := d.perpetratorName
      perpetratorRelationship := jsStrOrNull d.perpetratorRelationship
      encoderName := d.encoderName
      status := d.status
      priority := jsOrString d.priority "Medium"
      caseNotes := jsStrOrNull d.caseNotes
      createdAt := now
      updatedAt := 0 }
  (c, { st with cases := st.cases ++ [c], nextCaseId := st.nextCaseId + 1 })

/-- Validation prefix of the POST /api/cases handler, in source order; the
result is the 400 message of the first failing check, or none when every
check passes.  parseDate abstracts new Date(string) together with the NaN
test on getTime. -/
def validateCreateBody (b : CreateCaseBody) (parseDate : String → Option Nat) :
    Option String :=
  if !optTruthy b.victimName || !optIsString b.victimName then
    some "Victim name is required and must be a string"
  else if !optTruthy b.incidentType || !optIsString b.incidentType then
    some "Incident type is required and must be a string"
  else if !optTruthy b.perpetratorName || !optIsString b.perpetratorName then
    some "Perpetrator name is required and must be a string"
  else if !optTruthy b.encoderName || !optIsString b.encoderName then
    some "Encoder name is required and must be a string"
  else if !optTruthy b.status ||
      !(match b.status with
        | some (.str s) => s == "active" || s == "pending" || s == "closed"
        | _ => false) then
    some "Status is required and must be one of: active, pending, closed"
  else if !optTruthy b.incidentDate then
    some "Incident date is required"
  else
    match b.incidentDate with
    | some (.str s) =>
      match parseDate s with
      | none => some "Invalid incident date format"
      | some _ => none
    | _ => none

/-- Outcome of the POST /api/cases handler. -/
inductive CreateResult where
  | badRequest : String → CreateResult
  | created : Case → CreateResult
deriving DecidableEq, Repr

/-- The types selected in a services array. -/
def selectedTypes (sel : List ServiceSel) : List String :=
  (sel.filter (fun e => e.selected)).map (fun e => e.type)

/-- Insert the given service types one by one (the for loop shared by the
POST and PUT handlers). -/
def insertServiceTypes (st : DbState) (types : List String) (provider : String)
    (cid : Nat) (now : Nat) : DbState :=
  match types with
  | [] => st
  | t :: ts =>
    insertServiceTypes
      (dbAddService st
        { type := t, dateProvided := now, provider := provider
          notes := none, caseId := cid } now).2
      ts provider cid now

/-- POST /api/cases handler over the relational store: validate, create the
case, insert a service row per selected type, add the initial note when
caseNotes is a nonempty string.  The date conversion: a string was already
checked to parse, a Date passes through, and another truthy value is passed
through raw and coerced at insertion (modelled with a default).  All the
writes sit inside the same try block whose catch answers 400, so a
foreign-key violation on the note insert surfaces as a 400 after the case
and service rows were already committed. -/
def routePostCases (st : DbState) (userId : Nat) (b : CreateCaseBody) (now : Nat)
    (parseDate : String → Option Nat) : CreateResult × DbState :=
  match validateCreateBody b parseDate with
  | some msg => (.badRequest msg, st)
  | none =>
    let incidentDateVal : Nat :=
      match b.incidentDate with
      | some (.str s) => (parseDate s).getD now
      | some (.date t) => t
      | some (.num n) => n.toNat
      | _ => now
    let payload : InsertCase :=
      { victimName := strVal b.victimName
        victimAge := b.victimAge
        victimGender := b.victimGender
        barangay := b.barangay
        incidentDate := incidentDateVal
        incidentType := strVal b.incidentType
        incidentLocation := b.incidentLocation
        perpetratorName := strVal b.perpetratorName
        perpetratorRelationship := b.perpetratorRelationship
        encoderName := strVal b.encoderName
        status := strVal b.status
        priority := b.priority
        caseNotes := b.caseNotes }
    let created := dbCreateCase st payload now
    let st1 := created.2
    let newCase := created.1
    let st2 :=
      match b.services with
      | none => st1
      | some sel =>
        insertServiceTypes st1 (selectedTypes sel) (strVal b.encoderName) newCase.id now
    match b.caseNotes with
    | none => (.created newCase, st2)
    | some s =>
      if s == "" then (.created newCase, st2)
      else
        match dbAddNote st2 { content := s, authorId := userId, caseId := newCase.id } now with
        | .error _ => (.badRequest "Validation error", st2)
        | .ok p => (.created newCase, p.2)

/-- Raw body of PUT /api/cases/:id, modelled at schema types (so the typeof
guards of the handler cannot fail on representable bodies); the patch part
is forwarded to updateCase unchanged, in particular a present id field. -/
structure UpdateCaseBody where
  patch : CasePatch
  services : Option (List ServiceSel)
  otherServices : Option String
  caseNotes : Option String
deriving DecidableEq, Repr

/-- The status guard of the PUT handler: a present status must be one of
the three enumerated values. -/
def putStatusInvalid (v : Option String) : Bool :=
  match v with
  | none => false
  | some s => !(s == "active" || s == "pending" || s == "closed")

/-- Outcome of the PUT /api/cases/:id handler. -/
inductive UpdateResult where
  | badRequest : String → UpdateResult
  | notFound : UpdateResult
  | ok : Case → UpdateResult
deriving DecidableEq, Repr

/-- The service types newly inserted by the PUT handler: the selected types
of the payload minus the types already present for the case (existingTypes
is computed once, before the loop). -/
def serviceInserts (existingTypes : List String) (sel : List ServiceSel) : List String :=
  (selectedTypes sel).filter (fun t => !(existingTypes.contains t))

/-- PUT /api/cases/:id handler over the relational store: validate status,
update the case, insert the selected-but-not-yet-present service types, add
a further note when caseNotes is a nonempty string.  The writes sit inside
the same try block whose catch answers 400, so a foreign-key violation on
the note insert surfaces as a 400 after the update and the service rows
were already committed. -/
def routePutCase (st : DbState) (userId : Nat) (cid : Nat) (b : UpdateCaseBody)
    (now : Nat) : UpdateResult × DbState :=
  if putStatusInvalid b.patch.status then
    (.badRequest "Status must be one of: active, pending, closed", st)
  else
    match dbUpdateCase st cid b.patch with
    | (none, _) => (.notFound, st)
    | (some updated, st1) =>
      let st2 :=
        match b.services with
        | none => st1
        | some sel =>
          let existingTypes := (dbGetCaseServices st1 cid).map (fun s => s.type)
          insertServiceTypes st1 (serviceInserts existingTypes sel)
            (jsOrString b.patch.encoderName updated.encoderName) cid now
      match b.caseNotes with
      | none => (.ok updated, st2)
      | some s =>
        if s == "" then (.ok updated, st2)
        else
          match dbAddNote st2 { content := s, authorId := userId, caseId := cid } now with
          | .error _ => (.badRequest "Validation error", st2)
          | .ok p => (.ok updated, p.2)

/-- Outcome of the POST /api/cases/:id/notes handler; internalError is the
500 answered by the catch block when the insert throws. -/
inductive NoteResult where
  | badRequest : String → NoteResult
  | createdNote : Note → AuthorRef → NoteResult
  | internalError : NoteResult
deriving DecidableEq, Repr

/-- POST /api/cases/:id/notes handler over the relational store: after the
content check the note is inserted directly; the handler itself performs no
case-existence check, but a foreign-key violation raised by the insert is
caught by the surrounding try/catch and answered as a 500. -/
def routePostNote (st : DbState) (userId : Nat) (cid : Nat)
    (content : Option JsVal) (now : Nat) : NoteResult × DbState :=
  if !optTruthy content || !optIsString content then
    (.badRequest "Note content is required", st)
  else
    match dbAddNote st
      { content := strVal content, authorId := userId, caseId := cid } now with
    | .error _ => (.internalError, st)
    | .ok (n, st1) =>
      let author := dbGetUser st1 userId
      (.createdNote n (authorRefOf author), st1)

/-- POST /api/cases/:id/notes handler over the in-memory store (the route
uses MemStorage whenever DATABASE_URL is unset): same handler code, but
MemStorage.addNote inserts into a plain Map and cannot fail, so no
existence check of any kind stands between the request and the insert. -/
def memRoutePostNote (st : MemState) (userId : Nat) (cid : Nat)
    (content : Option JsVal) (now : Nat) : NoteResult × MemState :=
  if !optTruthy content || !optIsString content then
    (.badRequest "Note content is required", st)
  else
    let added := memAddNote st
      { content := strVal content, authorId := userId, caseId := cid } now
    let author := memGetUser added.2 userId
    (.createdNote added.1 (authorRefOf author), added.2)

/-- A keyed map stores every value under its own id field. -/
def keyedBy (m : List (Nat × α)) (f : α → Nat) : Prop :=
  ∀ e ∈ m, e.1 = f e.2

/-- A body field that is absent or does not hold a string. -/
def missingOrNotString (v : Option JsVal) : Bool :=
  match v with
  | some (.str _) => false
  | _ => true

/-- A status field that is absent or outside the three enumerated values. -/
def statusOutsideEnum (v : Option JsVal) : Bool :=
  match v with
  | some (.str s) => !(s == "active" || s == "pending" || s == "closed")
  | _ => true

/-- The validation-failure conditions enumerated by the specification for
case creation. -/
def claimedCreateInvalid (b : CreateCaseBody) (parseDate : String → Option Nat) : Prop :=
  missingOrNotString b.victimName = true ∨
  missingOrNotString b.incidentType = true ∨
  missingOrNotString b.perpetratorName = true ∨
  missingOrNotString b.encoderName = true ∨
  statusOutsideEnum b.status = true ∨
  b.incidentDate = none ∨
  ∃ s, b.incidentDate = some (.str s) ∧ parseDate s = none

/-- The service rows produced by inserting the given types starting at a
given serial id. -/
def addServiceRows (startId : Nat) (types : List String) (provider : String)
    (cid : Nat) (now : Nat) : List Service :=
  match types with
  | [] => []
  | t :: ts =>
    { id := startId, type := t, dateProvided := now, provider := provider
      notes := none, caseId := cid, createdAt := now } ::
      addServiceRows (startId + 1) ts provider cid now

/-- The in-memory state with no rows and fresh counters. -/
def emptyMemState : MemState :=
  { users := [], cases := [], services := [], notes := []
    currentUserId := 1, currentCaseId := 1, currentServiceId := 1, currentNoteId := 1 }

/-- The relational state with no rows and fresh counters. -/
def emptyDbState : DbState :=
  { users := [], cases := [], services := [], notes := []
    nextUserId := 1, nextCaseId := 1, nextServiceId := 1, nextNoteId := 1 }

/-- A concrete case row used by counterexamples and witnesses. -/
def sampleCase (i : Nat) (stat : String) (created : Nat) : Case :=
  { id := i, victimName := "Maria Santos", victimAge := none
    victimGender := none, barangay := none, incidentDate := jsDate 2023 11 15
    incidentType := "Physical abuse", incidentLocation := none
    perpetratorName := "Pedro Santos", perpetratorRelationship := none
    encoderName := "Admin User", status := stat, priority := some "Medium"
    caseNotes := none, createdAt := created, updatedAt := created }

/-- A concrete user row used by counterexamples and witnesses. -/
def sampleUser (i : Nat) (uname fname : String) : User :=
  { id := i, username := uname, password := "storedhash", fullName := fname
    position := none, office := none, role := "editor", createdAt := 0 }

/-- A concrete service row used by counterexamples and witnesses. -/
def sampleService (i : Nat) (cid : Nat) (t : String) (dp : Nat) : Service :=
  { id := i, type := t, dateProvided := dp, provider := "Municipal Health Office"
    notes := none, caseId := cid, createdAt := dp }

/-- A concrete note row used by counterexamples and witnesses. -/
def sampleNote (i : Nat) (aid cid : Nat) (created : Nat) : Note :=
  { id := i, content := "note content", authorId := aid, caseId := cid
    createdAt := created }

/-- A store holding one case whose status is outside the enumeration. -/
def badStatusState : MemState :=
  { emptyMemState with cases := [(1, sampleCase 1 "unknown" 10)] }

/-- A store holding one active case with id 1. -/
def oneCaseState : MemState :=
  { emptyMemState with cases := [(1, sampleCase 1 "active" 10)] }

/-- A partial-update payload carrying an id field. -/
def idPatch : CasePatch := { emptyPatch with id := some 2 }

/-- A partial-update payload setting only the status. -/
def statusClosedPatch : CasePatch := { emptyPatch with status := some "closed" }

/-- A store holding a user whose fullName is the empty string, a case and a
note authored by that user. -/
def blankNameState : MemState :=
  { emptyMemState with
    users := [(1, sampleUser 1 "ghost" "")]
    cases := [(1, sampleCase 1 "active" 10)]
    notes := [(1, sampleNote 1 1 1 5)] }

/-- A store holding one case together with a dependent service and note. -/
def cascadeState : MemState :=
  { emptyMemState with
    cases := [(1, sampleCase 1 "active" 10)]
    services := [(1, sampleService 1 1 "Medical assistance" 11)]
    notes := [(1, sampleNote 1 1 1 12)] }

/-- The POST body with every field absent. -/
def emptyCreateBody : CreateCaseBody :=
  { victimName := none, incidentType := none, perpetratorName := none
    encoderName := none, status := none, incidentDate := none
    victimAge := none, victimGender := none, barangay := none
    incidentLocation := none, perpetratorRelationship := none
    priority := none, services := none, otherServices := none
    caseNotes := none }

/-- A store with one registered user, for credential-validation witnesses. -/
def userState : MemState :=
  { emptyMemState with users := [(1, sampleUser 1 "admin" "Admin User")] }

/-- Plaintext equality standing in for a concrete bcrypt comparison. -/
def cmpEq (a b : String) : Bool := a == b

/-- A relational store with one case and one existing service for it. -/
def svcDbState : DbState :=
  { emptyDbState with
    cases := [sampleCase 1 "active" 10]
    services := [sampleService 1 1 "Legal assistance" 11]
    nextServiceId := 2 }

/-- A services payload reselecting an existing type and selecting a new one. -/
def selTwo : List ServiceSel :=
  [ { type := "Legal assistance", selected := true }
  , { type := "Medical assistance", selected := true } ]

/-- A PUT body carrying only a services array. -/
def putBodySel : UpdateCaseBody :=
  { patch := emptyPatch, services := some selTwo, otherServices := none
    caseNotes := none }

/-- What the PUT handler does to the services table when the payload has a
services array: it appends exactly one new row per service type that is
selected in the payload and not already present among the service rows of
the case; a type is inserted if and only if it is selected and no existing
service row of the case has that type, and deduplication looks at the type
only. -/
def putServicesSpec (st : DbState) (userId cid : Nat) (b : UpdateCaseBody)
    (now : Nat) (sel : List ServiceSel) (c : Case) : Prop :=
  (routePutCase st userId cid b now).2.services =
    st.services ++
      addServiceRows st.nextServiceId
        (serviceInserts ((dbGetCaseServices st cid).map (fun s => s.type)) sel)
        (jsOrString b.patch.encoderName (mergeCase c b.patch).encoderName) cid now ∧
  (∀ T,
    (∃ r ∈ addServiceRows st.nextServiceId
        (serviceInserts ((dbGetCaseServices st cid).map (fun s => s.type)) sel)
        (jsOrString b.patch.encoderName (mergeCase c b.patch).encoderName) cid now,
      r.type = T) ↔
    ((∃ e ∈ sel, e.selected = true ∧ e.type = T) ∧
      ¬ ∃ s ∈ st.services, s.caseId = cid ∧ s.type = T))

/-- A case-creation payload carrying a barangay and no priority, on which
the two createCase implementations produce observably different rows. -/
def divergingInsert : InsertCase :=
  { victimName := "Maria Santos", victimAge := none, victimGender := none
    barangay := some "Barangay Poblacion", incidentDate := jsDate 2023 11 15
    incidentType := "Physical abuse", incidentLocation := none
    perpetratorName := "Pedro Santos", perpetratorRelationship := none
    encoderName := "Admin User", status := "active", priority := none
    caseNotes := none }

/-- What POST /api/cases/:id/notes does for a well-formed id of a
nonexistent case and nonempty content, per backend.  The handler itself
performs no case-existence check, so a 404 is never returned.  On the
in-memory backend the insert cannot fail: the route answers 201 with the
created note and its resolved author, the orphan note row with that caseId
is stored, and the case is still absent.  On the relational backend the
foreign-key constraint on notes.case_id rejects the insert, and the catch
block answers 500 with the store unchanged. -/
def orphanNoteSpec (mst : MemState) (dst : DbState) (userId cid : Nat)
    (s : String) (now : Nat) : Prop :=
  memRoutePostNote mst userId cid (some (.str s)) now =
    (.createdNote
      { id := mst.currentNoteId, content := s, authorId := userId, caseId := cid
        createdAt := now }
      (authorRefOf (memGetUser mst userId)),
     { mst with
       notes := mapSet mst.notes mst.currentNoteId
         { id := mst.currentNoteId, content := s, authorId := userId, caseId := cid
           createdAt := now }
       currentNoteId := mst.currentNoteId + 1 }) ∧
  memGetCase (memRoutePostNote mst userId cid (some (.str s)) now).2 cid = none ∧
  routePostNote dst userId cid (some (.str s)) now = (.internalError, dst)

/-- What getCaseWithDetails returns on an existing case: the case itself,
exactly the dependent service rows ordered newest dateProvided first,
exactly the dependent note rows ordered newest createdAt first, and
per-field author resolution: the id of the referenced user (or 0 when it
is missing) and its fullName, except that a missing user or an empty
fullName resolves to Unknown. -/
def caseDetailsSpec (st : MemState) (cid : Nat) (c : Case) : Prop :=
  ∃ d, memGetCaseWithDetails st cid = some d ∧
    d.caseRow = c ∧
    d.services.Perm ((mapValues st.services).filter (fun s => s.caseId == cid)) ∧
    List.Pairwise (fun a b : Service => b.dateProvided ≤ a.dateProvided) d.services ∧
    (d.notes.map (fun e => e.note)).Perm
      ((mapValues st.notes).filter (fun n => n.caseId == cid)) ∧
    List.Pairwise (fun a b : NoteWithAuthor => b.note.createdAt ≤ a.note.createdAt) d.notes ∧
    (∀ e ∈ d.notes,
      e.author.id = ((memGetUser st e.note.authorId).map (fun u => u.id)).getD 0 ∧
      e.author.fullName =
        (match memGetUser st e.note.authorId with
         | none => "Unknown"
         | some u => if u.fullName = "" then "Unknown" else u.fullName))

theorem mapGet_eq_find_of_keyed {α : Type} (m : List (Nat × α)) (f : α → Nat)
    (h : keyedBy m f) (k : Nat) :
    mapGet m k = (mapValues m).find? (fun v => f v == k) := by
  induction m with
  | nil => rfl
  | cons e tl ih =>
    have he : e.1 = f e.2 := h e (List.mem_cons_self e tl)
    have htl : keyedBy tl f := fun x hx => h x (List.mem_cons_of_mem e hx)
    by_cases hk : f e.2 == k
    · simp [mapGet, mapValues, List.find?_cons, he, hk]
    · simp only [mapGet, mapValues, List.map_cons, List.find?_cons, he, hk]
      exact ih htl

theorem any_of_mapGet_some {α : Type} {m : List (Nat × α)} {k : Nat} {v : α}
    (h : mapGet m k = some v) : m.any (fun e => e.1 == k) = true := by
  unfold mapGet at h
  cases hf : m.find? (fun e => e.1 == k) with
  | none => rw [hf] at h; simp at h
  | some e =>
    have hpe := List.find?_some hf
    exact List.any_eq_true.2 ⟨e, List.mem_of_find?_eq_some hf, by simpa using hpe⟩

theorem find?_setEntry {α : Type} (m : List (Nat × α)) (k : Nat) (v : α)
    (h : m.any (fun e => e.1 == k) = true) :
    (m.map (fun e => if e.1 == k then (k, v) else e)).find? (fun e => e.1 == k) =
      some (k, v) := by
  induction m with
  | nil => simp at h
  | cons e tl ih =>
    by_cases hk : (e.1 == k) = true
    · rw [List.map_cons, if_pos hk]
      exact List.find?_cons_of_pos _ (by simp)
    · have htl : tl.any (fun x => x.1 == k) = true := by
        simpa [List.any_cons, hk] using h
      have step :
          List.find? (fun x : Nat × α => x.1 == k)
              (e :: tl.map (fun x => if x.1 == k then (k, v) else x)) =
            List.find? (fun x : Nat × α => x.1 == k)
              (tl.map (fun x => if x.1 == k then (k, v) else x)) :=
        List.find?_cons_of_neg _ hk
      rw [List.map_cons, if_neg hk, step]
      exact ih htl

theorem mapGet_mapSet_self {α : Type} (m : List (Nat × α)) (k : Nat) (v : α)
    (h : m.any (fun e => e.1 == k) = true) :
    mapGet (mapSet m k v) k = some v := by
  unfold mapGet mapSet
  rw [if_pos h, find?_setEntry m k v h]
  rfl

theorem mapGet_mapDelete_self {α : Type} (m : List (Nat × α)) (k : Nat) :
    mapGet (mapDelete m k) k = none := by
  unfold mapGet mapDelete
  rw [List.find?_eq_none.2]
  · rfl
  · intro e he
    have := (List.mem_filter.1 he).2
    simpa using this

theorem filter_values_erased {α : Type} (m : List (Nat × α)) (f : α → Nat) (k : Nat) :
    (mapValues (m.filter (fun e => f e.2 != k))).filter (fun v => f v == k) = [] := by
  rw [List.filter_eq_nil_iff]
  intro v hv
  obtain ⟨e, hem, rfl⟩ := List.mem_map.1 hv
  have := (List.mem_filter.1 hem).2
  simpa using this

theorem filter_filter_erased {α : Type} (l : List α) (f : α → Nat) (k : Nat) :
    (l.filter (fun x => f x != k)).filter (fun x => f x == k) = [] := by
  rw [List.filter_eq_nil_iff]
  intro x hx
  have := (List.mem_filter.1 hx).2
  simpa using this

theorem find?_filter_erased {α : Type} (l : List α) (f : α → Nat) (k : Nat) :
    (l.filter (fun x => f x != k)).find? (fun x => f x == k) = none := by
  rw [List.find?_eq_none]
  intro x hx
  have := (List.mem_filter.1 hx).2
  simpa using this

theorem memGetUser_eq_db (st : MemState) (hu : keyedBy st.users User.id) (uid : Nat) :
    memGetUser st uid = dbGetUser (dbStateOfMem st) uid := by
  unfold memGetUser dbGetUser dbStateOfMem
  simpa using mapGet_eq_find_of_keyed st.users User.id hu uid

theorem memGetCase_eq_db (st : MemState) (hc : keyedBy st.cases Case.id) (cid : Nat) :
    memGetCase st cid = dbGetCase (dbStateOfMem st) cid := by
  unfold memGetCase dbGetCase dbStateOfMem
  simpa using mapGet_eq_find_of_keyed st.cases Case.id hc cid

theorem memDetails_eq_db (st : MemState) (hc : keyedBy st.cases Case.id)
    (hu : keyedBy st.users User.id) (cid : Nat) :
    memGetCaseWithDetails st cid = dbGetCaseWithDetails (dbStateOfMem st) cid := by
  have hnotes :
      (memGetCaseNotes st cid).map
        (fun n => { note := n, author := authorRefOf (memGetUser st n.authorId) : NoteWithAuthor }) =
      (dbGetCaseNotes (dbStateOfMem st) cid).map
        (fun n => { note := n, author := authorRefOf (dbGetUser (dbStateOfMem st) n.authorId) : NoteWithAuthor }) :=
    List.map_congr_left (fun n _ => by rw [memGetUser_eq_db st hu n.authorId])
  unfold memGetCaseWithDetails dbGetCaseWithDetails
  rw [memGetCase_eq_db st hc cid]
  cases dbGetCase (dbStateOfMem st) cid with
  | none => rfl
  | some c => rw [hnotes]; rfl

theorem memGetCases_eq_db (st : MemState) :
    memGetCases st = dbGetCases (dbStateOfMem st) := rfl

/-- Length of a list of cases whose statuses all lie in the enumeration
splits into the three status filters. -/
theorem length_filter_status (l : List Case)
    (h : ∀ c ∈ l, c.status = "active" ∨ c.status = "pending" ∨ c.status = "closed") :
    l.length =
      (l.filter (fun c => c.status == "active")).length +
      (l.filter (fun c => c.status == "pending")).length +
      (l.filter (fun c => c.status == "closed")).length := by
  induction l with
  | nil => rfl
  | cons c tl ih =>
    have hc := h c (List.mem_cons_self c tl)
    have htl := ih (fun x hx => h x (List.mem_cons_of_mem c hx))
    rcases hc with h1 | h1 | h1 <;>
      simp [List.filter_cons, h1, htl] <;> omega

/-- Claim C1, counterexample: identical operation sequences applied to
identical stores do not produce identical observable results.  Applying the
same createCase payload to both implementations over identical empty stores
yields rows that getCase observes differently: DBStorage drops barangay and
substitutes the Medium priority default where MemStorage stores the payload
verbatim.  Moreover getDashboardStats differs even over identical stored
rows: MemStorage returns six hardcoded sample staffActivities while
DBStorage derives the feed from the (empty) notes table. -/
theorem mem_db_observable_divergence :
    ((memGetCase (memCreateCase emptyMemState divergingInsert 5).2 1).map
        (fun c => c.barangay) = some (some "Barangay Poblacion")) ∧
    ((dbGetCase (dbCreateCase emptyDbState divergingInsert 5).2 1).map
        (fun c => c.barangay) = some none) ∧
    ((memGetCase (memCreateCase emptyMemState divergingInsert 5).2 1).map
        (fun c => c.priority) = some none) ∧
    ((dbGetCase (dbCreateCase emptyDbState divergingInsert 5).2 1).map
        (fun c => c.priority) = some (some "Medium")) ∧
    (memGetDashboardStats emptyMemState).staffActivities ≠
      (dbGetDashboardStats (dbStateOfMem emptyMemState)).staffActivities := by
  decide

/-- Claim C1, amended: over identical stored rows (a well-keyed in-memory
store and the relational store holding exactly its rows), the two
getDashboardStats implementations agree on all counts, on the change
strings, and on the recentCases list; only the staffActivities feed
differs, MemStorage hardcoding it and DBStorage deriving it from the five
most recent notes. -/
theorem dashboard_agreement (st : MemState)
    (hc : keyedBy st.cases Case.id) (hu : keyedBy st.users User.id) :
    (memGetDashboardStats st).totalCases = (dbGetDashboardStats (dbStateOfMem st)).totalCases ∧
    (memGetDashboardStats st).activeCases = (dbGetDashboardStats (dbStateOfMem st)).activeCases ∧
    (memGetDashboardStats st).pendingCases = (dbGetDashboardStats (dbStateOfMem st)).pendingCases ∧
    (memGetDashboardStats st).closedCases = (dbGetDashboardStats (dbStateOfMem st)).closedCases ∧
    (memGetDashboardStats st).totalCasesChange = (dbGetDashboardStats (dbStateOfMem st)).totalCasesChange ∧
    (memGetDashboardStats st).activeCasesChange = (dbGetDashboardStats (dbStateOfMem st)).activeCasesChange ∧
    (memGetDashboardStats st).pendingCasesChange = (dbGetDashboardStats (dbStateOfMem st)).pendingCasesChange ∧
    (memGetDashboardStats st).closedCasesChange = (dbGetDashboardStats (dbStateOfMem st)).closedCasesChange ∧
    (memGetDashboardStats st).recentCases = (dbGetDashboardStats (dbStateOfMem st)).recentCases := by
  have hsorted : List.insertionSort caseNewerFirst (memGetCases st) = memGetCases st :=
    List.Sorted.insertionSort_eq
      (List.sorted_insertionSort caseNewerFirst (mapValues st.cases))
  have hfun : (fun c : Case => memGetCaseWithDetails st c.id) =
      (fun c : Case => dbGetCaseWithDetails (dbStateOfMem st) c.id) :=
    funext (fun c => memDetails_eq_db st hc hu c.id)
  refine ⟨rfl, rfl, rfl, rfl, rfl, rfl, rfl, rfl, ?_⟩
  show ((List.insertionSort caseNewerFirst (memGetCases st)).take 5).filterMap
      (fun c => memGetCaseWithDetails st c.id) =
    ((dbGetCases (dbStateOfMem st)).take 5).filterMap
      (fun c => dbGetCaseWithDetails (dbStateOfMem st) c.id)
  rw [hsorted, hfun]
  rfl

theorem dashboard_agreement_witness :
    (memGetDashboardStats cascadeState).recentCases =
      (dbGetDashboardStats (dbStateOfMem cascadeState)).recentCases :=
  (dashboard_agreement cascadeState (by unfold keyedBy; decide)
    (by unfold keyedBy; decide)).2.2.2.2.2.2.2.2

/-- Claim C2, counterexample: a store containing one case whose status
string is outside the enumeration violates the claimed invariant, because
getDashboardStats counts it in totalCases but in none of the three status
buckets. -/
theorem status_partition_counterexample :
    ¬ ((memGetDashboardStats badStatusState).totalCases =
        (memGetDashboardStats badStatusState).activeCases +
        (memGetDashboardStats badStatusState).pendingCases +
        (memGetDashboardStats badStatusState).closedCases) := by
  decide

/-- Claim C2, amended: whenever every stored case has one of the three
enumerated statuses (which is all the route layer can produce), both
implementations of getDashboardStats satisfy
totalCases = activeCases + pendingCases + closedCases. -/
theorem status_partition_amended (st : MemState)
    (h : ∀ c ∈ mapValues st.cases,
      c.status = "active" ∨ c.status = "pending" ∨ c.status = "closed") :
    ((memGetDashboardStats st).totalCases =
      (memGetDashboardStats st).activeCases +
      (memGetDashboardStats st).pendingCases +
      (memGetDashboardStats st).closedCases) ∧
    ((dbGetDashboardStats (dbStateOfMem st)).totalCases =
      (dbGetDashboardStats (dbStateOfMem st)).activeCases +
      (dbGetDashboardStats (dbStateOfMem st)).pendingCases +
      (dbGetDashboardStats (dbStateOfMem st)).closedCases) := by
  have hs : ∀ c ∈ memGetCases st,
      c.status = "active" ∨ c.status = "pending" ∨ c.status = "closed" :=
    fun c hcm => h c ((List.mem_insertionSort caseNewerFirst).1 hcm)
  have hmem := length_filter_status (memGetCases st) hs
  exact ⟨hmem, hmem⟩

theorem status_partition_witness :
    (memGetDashboardStats oneCaseState).totalCases =
      (memGetDashboardStats oneCaseState).activeCases +
      (memGetDashboardStats oneCaseState).pendingCases +
      (memGetDashboardStats oneCaseState).closedCases :=
  (status_partition_amended oneCaseState (by decide)).1

/-- Claim C3, counterexample: the PUT handler forwards a payload id field
to updateCase, and the object spread in MemStorage.updateCase then
overwrites the stored id: updating case 1 with a payload carrying id 2
leaves the record stored under key 1 with id 2, not 1. -/
theorem update_id_counterexample :
    ((mapGet (memUpdateCase oneCaseState 1 idPatch 11).2.cases 1).map (fun c => c.id) = some 2) ∧
    ¬ ((mapGet (memUpdateCase oneCaseState 1 idPatch 11).2.cases 1).map (fun c => c.id) = some 1) := by
  decide

/-- Claim C3, amended: for every payload that does not itself carry an id
field, updateCase leaves the id unchanged: the record stored under the key
keeps the id of the previous record, and on the relational path the id
column of every row is unchanged. -/
theorem update_id_amended (st : MemState) (dst : DbState) (cid : Nat)
    (p : CasePatch) (now : Nat) (c : Case)
    (hmem : mapGet st.cases cid = some c) (hid : p.id = none) :
    mapGet (memUpdateCase st cid p now).2.cases cid =
      some { mergeCase c p with updatedAt := now } ∧
    ({ mergeCase c p with updatedAt := now } : Case).id = c.id ∧
    (dbUpdateCase dst cid p).2.cases.map (fun x => x.id) = dst.cases.map (fun x => x.id) := by
  refine ⟨?_, ?_, ?_⟩
  · simp only [memUpdateCase, hmem]
    exact mapGet_mapSet_self st.cases cid _ (any_of_mapGet_some hmem)
  · simp [mergeCase, hid]
  · cases hf : dst.cases.find? (fun x => x.id == cid) with
    | none => simp [dbUpdateCase, hf]
    | some c0 =>
      simp only [dbUpdateCase, hf, List.map_map]
      refine List.map_congr_left (fun x _ => ?_)
      by_cases hx : (x.id == cid) = true <;> simp [Function.comp, hx, mergeCase, hid]

theorem update_id_witness :
    mapGet (memUpdateCase oneCaseState 1 statusClosedPatch 11).2.cases 1 =
      some { mergeCase (sampleCase 1 "active" 10) statusClosedPatch with updatedAt := 11 } :=
  (update_id_amended oneCaseState (dbStateOfMem oneCaseState) 1 statusClosedPatch 11
    (sampleCase 1 "active" 10) (by decide) rfl).1

/-- Claim C9, counterexample: updating a case with the empty payload still
changes a stored field that the payload does not mention, because
MemStorage.updateCase refreshes updatedAt on every update. -/
theorem update_frame_counterexample :
    ((memUpdateCase oneCaseState 1 emptyPatch 11).1.map (fun c => c.updatedAt) = some 11) ∧
    ((mapGet oneCaseState.cases 1).map (fun c => c.updatedAt) = some 10) := by
  decide

/-- Claim C9, amended: updateCase changes exactly the fields present in the
payload plus updatedAt: the stored and returned record is the object
spread of the payload over the previous record, every field absent from
the payload other than updatedAt keeps its previous value, every field
present takes the payload value, and MemStorage refreshes updatedAt while
the relational update (whose schema has no updatedAt column) leaves it
untouched. -/
theorem update_frame_amended (st : MemState) (cid : Nat) (p : CasePatch) (now : Nat)
    (c : Case) (hmem : mapGet st.cases cid = some c) :
    (memUpdateCase st cid p now).1 = some { mergeCase c p with updatedAt := now } ∧
    mapGet (memUpdateCase st cid p now).2.cases cid =
      some { mergeCase c p with updatedAt := now } ∧
    ({ mergeCase c p with updatedAt := now } : Case).updatedAt = now ∧
    (mergeCase c p).updatedAt = c.updatedAt ∧
    (p.id = none → (mergeCase c p).id = c.id) ∧
    (∀ v, p.id = some v → (mergeCase c p).id = v) ∧
    (p.victimName = none → (mergeCase c p).victimName = c.victimName) ∧
    (∀ v, p.victimName = some v → (mergeCase c p).victimName = v) ∧
    (p.victimAge = none → (mergeCase c p).victimAge = c.victimAge) ∧
    (∀ v, p.victimAge = some v → (mergeCase c p).victimAge = v) ∧
    (p.victimGender = none → (mergeCase c p).victimGender = c.victimGender) ∧
    (∀ v, p.victimGender = some v → (mergeCase c p).victimGender = v) ∧
    (p.barangay = none → (mergeCase c p).barangay = c.barangay) ∧
    (∀ v, p.barangay = some v → (mergeCase c p).barangay = v) ∧
    (p.incidentDate = none → (mergeCase c p).incidentDate = c.incidentDate) ∧
    (∀ v, p.incidentDate = some v → (mergeCase c p).incidentDate = v) ∧
    (p.incidentType = none → (mergeCase c p).incidentType = c.incidentType) ∧
    (∀ v, p.incidentType = some v → (mergeCase c p).incidentType = v) ∧
    (p.incidentLocation = none → (mergeCase c p).incidentLocation = c.incidentLocation) ∧
    (∀ v, p.incidentLocation = some v → (mergeCase c p).incidentLocation = v) ∧
    (p.perpetratorName = none → (mergeCase c p).perpetratorName = c.perpetratorName) ∧
    (∀ v, p.perpetratorName = some v → (mergeCase c p).perpetratorName = v) ∧
    (p.perpetratorRelationship = none →
      (mergeCase c p).perpetratorRelationship = c.perpetratorRelationship) ∧
    (∀ v, p.perpetratorRelationship = some v →
      (mergeCase c p).perpetratorRelationship = v) ∧
    (p.encoderName = none → (mergeCase c p).encoderName = c.encoderName) ∧
    (∀ v, p.encoderName = some v → (mergeCase c p).encoderName = v) ∧
    (p.status = none → (mergeCase c p).status = c.status) ∧
    (∀ v, p.status = some v → (mergeCase c p).status = v) ∧
    (p.priority = none → (mergeCase c p).priority = c.priority) ∧
    (∀ v, p.priority = some v → (mergeCase c p).priority = v) ∧
    (p.caseNotes = none → (mergeCase c p).caseNotes = c.caseNotes) ∧
    (∀ v, p.caseNotes = some v → (mergeCase c p).caseNotes = v) ∧
    (p.createdAt = none → (mergeCase c p).createdAt = c.createdAt) ∧
    (∀ v, p.createdAt = some v → (mergeCase c p).createdAt = v) := by
  and_intros
  · simp [memUpdateCase, hmem]
  · simp only [memUpdateCase, hmem]
    exact mapGet_mapSet_self st.cases cid _ (any_of_mapGet_some hmem)
  · rfl
  · rfl
  all_goals
    first
      | (intro h; simp [mergeCase, h])
      | (intro v h; simp [mergeCase, h])

theorem update_frame_witness :
    (memUpdateCase oneCaseState 1 statusClosedPatch 11).1 =
      some { mergeCase (sampleCase 1 "active" 10) statusClosedPatch with updatedAt := 11 } :=
  (update_frame_amended oneCaseState 1 statusClosedPatch 11
    (sampleCase 1 "active" 10) (by decide)).1

/-- Claim C4: deleting an existing case succeeds and removes every
dependent service and note, in both implementations: afterwards
getCaseServices and getCaseNotes return the empty list and getCase returns
none. -/
theorem delete_cascades (st : MemState) (dst : DbState) (cid : Nat)
    (h1 : (mapGet st.cases cid).isSome = true) (h2 : (dbGetCase dst cid).isSome = true) :
    (memDeleteCase st cid).1 = true ∧
    memGetCaseServices (memDeleteCase st cid).2 cid = [] ∧
    memGetCaseNotes (memDeleteCase st cid).2 cid = [] ∧
    memGetCase (memDeleteCase st cid).2 cid = none ∧
    (dbDeleteCase dst cid).1 = true ∧
    dbGetCaseServices (dbDeleteCase dst cid).2 cid = [] ∧
    dbGetCaseNotes (dbDeleteCase dst cid).2 cid = [] ∧
    dbGetCase (dbDeleteCase dst cid).2 cid = none := by
  obtain ⟨c0, hc0⟩ := Option.isSome_iff_exists.1 h2
  have hmem2 : memDeleteCase st cid =
      (true,
        { st with
          cases := mapDelete st.cases cid
          services := st.services.filter (fun e => e.2.caseId != cid)
          notes := st.notes.filter (fun e => e.2.caseId != cid) }) := by
    simp [memDeleteCase, h1]
  have hdb2 : dbDeleteCase dst cid =
      (true,
        { dst with
          cases := dst.cases.filter (fun c => c.id != cid)
          services := dst.services.filter (fun s => s.caseId != cid)
          notes := dst.notes.filter (fun n => n.caseId != cid) }) := by
    simp [dbDeleteCase, hc0]
  refine ⟨by rw [hmem2], ?_, ?_, ?_, by rw [hdb2], ?_, ?_, ?_⟩
  · rw [hmem2]
    show List.insertionSort svcNewerFirst
        ((mapValues (st.services.filter (fun e => e.2.caseId != cid))).filter
          (fun s => s.caseId == cid)) = []
    rw [filter_values_erased st.services Service.caseId cid]
    rfl
  · rw [hmem2]
    show List.insertionSort noteNewerFirst
        ((mapValues (st.notes.filter (fun e => e.2.caseId != cid))).filter
          (fun n => n.caseId == cid)) = []
    rw [filter_values_erased st.notes Note.caseId cid]
    rfl
  · rw [hmem2]
    exact mapGet_mapDelete_self st.cases cid
  · rw [hdb2]
    show List.insertionSort svcNewerFirst
        ((dst.services.filter (fun s => s.caseId != cid)).filter
          (fun s => s.caseId == cid)) = []
    rw [filter_filter_erased dst.services Service.caseId cid]
    rfl
  · rw [hdb2]
    show List.insertionSort noteNewerFirst
        ((dst.notes.filter (fun n => n.caseId != cid)).filter
          (fun n => n.caseId == cid)) = []
    rw [filter_filter_erased dst.notes Note.caseId cid]
    rfl
  · rw [hdb2]
    exact find?_filter_erased dst.cases Case.id cid

theorem delete_cascades_witness :
    memGetCase (memDeleteCase cascadeState 1).2 1 = none :=
  (delete_cascades cascadeState (dbStateOfMem cascadeState) 1
    (by decide) (by decide)).2.2.2.1

theorem validate_none_sound (b : CreateCaseBody) (pd : String → Option Nat)
    (h : validateCreateBody b pd = none) : ¬ claimedCreateInvalid b pd := by
  unfold validateCreateBody at h
  split_ifs at h with h1 h2 h3 h4 h5 h6
  intro hc
  simp only [Bool.or_eq_true, Bool.not_eq_true', not_or] at h1 h2 h3 h4 h5 h6
  rcases hc with hx | hx | hx | hx | hx | hx | ⟨s, hs, hp⟩
  · cases hb : b.victimName with
    | none => rw [hb] at h1; exact absurd h1.1 (by simp [optTruthy])
    | some v =>
      rw [hb] at h1 hx
      cases v <;> simp [optIsString] at h1 <;> simp [missingOrNotString] at hx
  · cases hb : b.incidentType with
    | none => rw [hb] at h2; exact absurd h2.1 (by simp [optTruthy])
    | some v =>
      rw [hb] at h2 hx
      cases v <;> simp [optIsString] at h2 <;> simp [missingOrNotString] at hx
  · cases hb : b.perpetratorName with
    | none => rw [hb] at h3; exact absurd h3.1 (by simp [optTruthy])
    | some v =>
      rw [hb] at h3 hx
      cases v <;> simp [optIsString] at h3 <;> simp [missingOrNotString] at hx
  · cases hb : b.encoderName with
    | none => rw [hb] at h4; exact absurd h4.1 (by simp [optTruthy])
    | some v =>
      rw [hb] at h4 hx
      cases v <;> simp [optIsString] at h4 <;> simp [missingOrNotString] at hx
  · cases hb : b.status with
    | none => rw [hb] at h5; exact absurd h5.1 (by simp [optTruthy])
    | some v =>
      rw [hb] at h5 hx
      cases v <;> simp at h5 <;> simp [statusOutsideEnum] at hx
      exact absurd h5.2 (by simp [hx])
  · rw [hx] at h6
    exact absurd h6 (by simp [optTruthy])
  · rw [hs] at h
    simp [hp] at h

/-- Claim C5: every case-creation request failing one of the enumerated
validation conditions (a required string field missing or not a string, a
status absent or outside the enumeration, an incident date missing or an
unparseable date string) is answered with a 400 error and leaves the store
untouched: no case, service or note row is written. -/
theorem create_validation_no_write (st : DbState) (userId : Nat)
    (b : CreateCaseBody) (now : Nat) (pd : String → Option Nat)
    (h : claimedCreateInvalid b pd) :
    ∃ msg, routePostCases st userId b now pd = (.badRequest msg, st) := by
  cases hv : validateCreateBody b pd with
  | none => exact absurd h (validate_none_sound b pd hv)
  | some msg =>
    exact ⟨msg, by simp [routePostCases, hv]⟩

theorem create_validation_no_write_witness :
    ∃ msg, routePostCases emptyDbState 1 emptyCreateBody 0 (fun _ => none) =
      (.badRequest msg, emptyDbState) :=
  create_validation_no_write emptyDbState 1 emptyCreateBody 0 (fun _ => none)
    (Or.inl (by decide))

/-- Claim C6: in both implementations, validateUser returns none whenever
the password does not pass the stored-hash comparison (including when no
user with the username exists), and returns a user only when that user is
the one found for the username and the comparison succeeded.  The bcrypt
comparison cmp is an arbitrary total boolean function, so validateUser is a
total function of the state: there is no failure path for a wrong
password. -/
theorem validate_user_spec (cmp : String → String → Bool) (st : MemState)
    (dst : DbState) (username password : String) :
    (memGetUserByUsername st username = none →
      memValidateUser cmp st username password = none) ∧
    (∀ u, memGetUserByUsername st username = some u →
      cmp password u.password = false →
      memValidateUser cmp st username password = none) ∧
    (∀ u, memValidateUser cmp st username password = some u →
      memGetUserByUsername st username = some u ∧ cmp password u.password = true) ∧
    (dbGetUserByUsername dst username = none →
      dbValidateUser cmp dst username password = none) ∧
    (∀ u, dbGetUserByUsername dst username = some u →
      cmp password u.password = false →
      dbValidateUser cmp dst username password = none) ∧
    (∀ u, dbValidateUser cmp dst username password = some u →
      dbGetUserByUsername dst username = some u ∧ cmp password u.password = true) := by
  refine ⟨?_, ?_, ?_, ?_, ?_, ?_⟩
  · intro h; simp [memValidateUser, h]
  · intro u hu hcmp; simp [memValidateUser, hu, hcmp]
  · intro u hu
    unfold memValidateUser at hu
    cases hf : memGetUserByUsername st username with
    | none => rw [hf] at hu; simp at hu
    | some u0 =>
      rw [hf] at hu
      by_cases hcmp : cmp password u0.password = true
      · simp [hcmp] at hu
        subst hu
        exact ⟨rfl, hcmp⟩
      · simp [hcmp] at hu
  · intro h; simp [dbValidateUser, h]
  · intro u hu hcmp; simp [dbValidateUser, hu, hcmp]
  · intro u hu
    unfold dbValidateUser at hu
    cases hf : dbGetUserByUsername dst username with
    | none => rw [hf] at hu; simp at hu
    | some u0 =>
      rw [hf] at hu
      by_cases hcmp : cmp password u0.password = true
      · simp [hcmp] at hu
        subst hu
        exact ⟨rfl, hcmp⟩
      · simp [hcmp] at hu

theorem validate_user_spec_witness :
    memValidateUser cmpEq userState "admin" "wrong" = none :=
  (validate_user_spec cmpEq userState (dbStateOfMem userState) "admin" "wrong").2.1
    (sampleUser 1 "admin" "Admin User") (by decide) (by decide)

/-- Claim C7, counterexample: author resolution is not the claimed
record-level fallback: for a note whose author record exists but has an
empty fullName, getCaseWithDetails resolves the author to its real id
paired with the string Unknown, not to the fullName of the referenced
user (which is empty). -/
theorem details_author_counterexample :
    ((memGetCaseWithDetails blankNameState 1).map
      (fun d => d.notes.map (fun e => e.author))) =
      some [{ id := 1, fullName := "Unknown" }] ∧
    (memGetUser blankNameState 1).map (fun u => u.fullName) = some "" := by
  decide

/-- Claim C7, amended: for every existing case id, getCaseWithDetails
returns the case with exactly its service rows ordered newest dateProvided
first and exactly its note rows ordered newest createdAt first, resolving
each author per field: id of the referenced user or 0 when missing, and
fullName of the referenced user except that a missing user or an empty
fullName yields Unknown. -/
theorem details_spec_amended (st : MemState) (cid : Nat) (c : Case)
    (hmem : memGetCase st cid = some c) : caseDetailsSpec st cid c := by
  unfold caseDetailsSpec
  refine ⟨{ caseRow := c
            services := memGetCaseServices st cid
            notes := (memGetCaseNotes st cid).map (fun n =>
              { note := n, author := authorRefOf (memGetUser st n.authorId) }) },
    ?_, rfl, ?_, ?_, ?_, ?_, ?_⟩
  · simp [memGetCaseWithDetails, hmem]
  · exact List.perm_insertionSort svcNewerFirst _
  · exact List.sorted_insertionSort svcNewerFirst _
  · have hperm := List.perm_insertionSort noteNewerFirst
      ((mapValues st.notes).filter (fun n => n.caseId == cid))
    simpa [List.map_map, Function.comp_def, memGetCaseNotes] using hperm
  · exact List.Pairwise.map _ (fun a b h => h)
      (List.sorted_insertionSort noteNewerFirst _)
  · intro e he
    obtain ⟨n, hn, rfl⟩ := List.mem_map.1 he
    constructor
    · cases hu : memGetUser st n.authorId with
      | none => simp [authorRefOf, jsOrNat, hu]
      | some u =>
        simp only [authorRefOf, jsOrNat, hu, Option.map_some', Option.getD_some]
        by_cases h0 : u.id = 0
        · simp [h0]
        · simp [h0]
    · cases hu : memGetUser st n.authorId with
      | none => simp [authorRefOf, jsOrString, hu]
      | some u =>
        simp only [authorRefOf, jsOrString, hu, Option.map_some']
        by_cases h0 : u.fullName = ""
        · simp [h0]
        · simp [h0]

theorem details_spec_witness : caseDetailsSpec blankNameState 1 (sampleCase 1 "active" 10) :=
  details_spec_amended blankNameState 1 (sampleCase 1 "active" 10) (by decide)

theorem insertServiceTypes_state (types : List String) (st : DbState)
    (provider : String) (cid now : Nat) :
    (insertServiceTypes st types provider cid now).services =
      st.services ++ addServiceRows st.nextServiceId types provider cid now ∧
    (insertServiceTypes st types provider cid now).notes = st.notes ∧
    (insertServiceTypes st types provider cid now).cases = st.cases := by
  induction types generalizing st with
  | nil => simp [insertServiceTypes, addServiceRows]
  | cons t ts ih =>
    obtain ⟨hs, hn, hc⟩ := ih
      ((dbAddService st
        { type := t, dateProvided := now, provider := provider
          notes := none, caseId := cid } now).2)
    refine ⟨?_, ?_, ?_⟩ <;>
      simp only [insertServiceTypes, hs, hn, hc] <;>
      simp [dbAddService, addServiceRows, List.append_assoc]

theorem mem_addServiceRows (i : Nat) (types : List String) (provider : String)
    (cid now : Nat) (T : String) :
    (∃ r ∈ addServiceRows i types provider cid now, r.type = T) ↔ T ∈ types := by
  induction types generalizing i with
  | nil => simp [addServiceRows]
  | cons t ts ih =>
    simp only [addServiceRows, List.mem_cons]
    rw [← ih (i + 1)]
    constructor
    · rintro ⟨r, hr | hr, hT⟩
      · left; rw [← hT, hr]
      · right; exact ⟨r, hr, hT⟩
    · rintro (heq | ⟨r, hr, hT⟩)
      · exact ⟨_, Or.inl rfl, by simp [heq]⟩
      · exact ⟨r, Or.inr hr, hT⟩

theorem mem_serviceInserts (ex : List String) (sel : List ServiceSel) (T : String) :
    T ∈ serviceInserts ex sel ↔
      ((∃ e ∈ sel, e.selected = true ∧ e.type = T) ∧ ¬ T ∈ ex) := by
  unfold serviceInserts selectedTypes
  simp only [List.mem_filter, List.mem_map, Bool.not_eq_true']
  constructor
  · rintro ⟨⟨e, ⟨he, hsel2⟩, rfl⟩, hcon⟩
    exact ⟨⟨e, he, hsel2, rfl⟩, by simpa [List.contains] using hcon⟩
  · rintro ⟨⟨e, he, hsel2, rfl⟩, hnot⟩
    exact ⟨⟨e, ⟨he, hsel2⟩, rfl⟩, by simpa [List.contains] using hnot⟩

theorem mem_existing_types (st : DbState) (cid : Nat) (T : String) :
    T ∈ (dbGetCaseServices st cid).map (fun s => s.type) ↔
      ∃ s ∈ st.services, s.caseId = cid ∧ s.type = T := by
  unfold dbGetCaseServices
  constructor
  · rintro hT
    obtain ⟨s, hs, rfl⟩ := List.mem_map.1 hT
    have hs2 := (List.mem_insertionSort svcNewerFirst).1 hs
    have hs3 := List.mem_filter.1 hs2
    exact ⟨s, hs3.1, by simpa using hs3.2, rfl⟩
  · rintro ⟨s, hs, hcid, rfl⟩
    exact List.mem_map.2
      ⟨s, (List.mem_insertionSort svcNewerFirst).2
        (List.mem_filter.2 ⟨hs, by simpa using hcid⟩), rfl⟩

/-- Claim C8: when a case update carries a services array, the handler
inserts a new service row for a type exactly when that type is selected in
the payload and no existing service row of the case already has it;
deduplication is by type only, so reselecting a present type inserts
nothing. -/
theorem dbAddNote_ok_preserves (st : DbState) (d : InsertNote) (now : Nat)
    (n : Note) (st1 : DbState) (h : dbAddNote st d now = .ok (n, st1)) :
    st1.services = st.services ∧ st1.cases = st.cases ∧ st1.users = st.users := by
  unfold dbAddNote at h
  by_cases hg : (st.cases.any (fun c => c.id == d.caseId) &&
      st.users.any (fun u => u.id == d.authorId)) = true
  · rw [if_pos hg] at h
    simp only [Except.ok.injEq, Prod.mk.injEq] at h
    rw [← h.2]
    exact ⟨rfl, rfl, rfl⟩
  · rw [if_neg hg] at h
    simp at h

theorem update_service_dedup (st : DbState) (userId cid : Nat) (b : UpdateCaseBody)
    (now : Nat) (sel : List ServiceSel) (c : Case)
    (hstatus : putStatusInvalid b.patch.status = false)
    (hfind : st.cases.find? (fun x => x.id == cid) = some c)
    (hsel : b.services = some sel) :
    putServicesSpec st userId cid b now sel c := by
  constructor
  · have hroute :
        (routePutCase st userId cid b now).2.services =
          (insertServiceTypes
            { st with cases := st.cases.map (fun x => if x.id == cid then mergeCase x b.patch else x) }
            (serviceInserts ((dbGetCaseServices st cid).map (fun s => s.type)) sel)
            (jsOrString b.patch.encoderName (mergeCase c b.patch).encoderName) cid now).services := by
      simp only [routePutCase, hstatus, Bool.false_eq_true, if_false, dbUpdateCase, hfind, hsel]
      split
      · rfl
      · rename_i s heq
        by_cases hblank : (s == "") = true
        · rw [if_pos hblank]
          rfl
        · rw [if_neg hblank]
          split
          · rfl
          · rename_i p heq2
            obtain ⟨n, st1⟩ := p
            exact (dbAddNote_ok_preserves _ _ _ _ _ heq2).1
    rw [hroute, (insertServiceTypes_state _ _ _ _ _).1]
  · intro T
    rw [mem_addServiceRows, mem_serviceInserts]
    constructor
    · rintro ⟨hsel2, hnot⟩
      exact ⟨hsel2, fun hex => hnot ((mem_existing_types st cid T).2 hex)⟩
    · rintro ⟨hsel2, hnot⟩
      exact ⟨hsel2, fun hex => hnot ((mem_existing_types st cid T).1 hex)⟩

theorem update_service_dedup_witness :
    putServicesSpec svcDbState 1 1 putBodySel 20 selTwo (sampleCase 1 "active" 10) :=
  update_service_dedup svcDbState 1 1 putBodySel 20 selTwo (sampleCase 1 "active" 10)
    (by decide) (by decide) rfl

/-- Claim C10, counterexample: on the relational backend the orphan insert
does not answer 201: the foreign-key constraints of the notes table reject
it inside the try block and the handler answers 500 with no note row
persisted. -/
theorem orphan_note_counterexample :
    routePostNote emptyDbState 1 7 (some (.str "orphan note")) 30 =
      (.internalError, emptyDbState) := by
  decide

/-- Claim C10, amended: the notes route performs no case-existence check of
its own, so a 404 is never produced.  On the in-memory backend the orphan
insert therefore succeeds: 201 with the created note, the orphan note row
stored under that caseId, and the case still absent.  On the relational
backend the foreign-key constraint on notes.case_id rejects the insert and
the catch block answers 500 with the store unchanged. -/
theorem orphan_note_amended (mst : MemState) (dst : DbState) (userId cid : Nat)
    (s : String) (now : Nat)
    (hmemno : mapGet mst.cases cid = none)
    (hdbno : ∀ c ∈ dst.cases, c.id ≠ cid)
    (hs : s ≠ "") :
    orphanNoteSpec mst dst userId cid s now := by
  have htr : optTruthy (some (.str s)) = true := by
    simp [optTruthy, jsTruthy, hs]
  refine ⟨?_, ?_, ?_⟩
  · simp [memRoutePostNote, htr, optIsString, strVal, memAddNote, memGetUser]
  · have hcases : (memRoutePostNote mst userId cid (some (.str s)) now).2.cases = mst.cases := by
      simp [memRoutePostNote, htr, optIsString, memAddNote]
    unfold memGetCase
    rw [hcases]
    exact hmemno
  · have hany : dst.cases.any (fun c => c.id == cid) = false := by
      simp only [List.any_eq_false]
      intro c hc
      simpa using hdbno c hc
    simp [routePostNote, htr, optIsString, strVal, dbAddNote, hany]

theorem orphan_note_amended_witness : orphanNoteSpec emptyMemState emptyDbState 1 7 "follow up" 30 :=
  orphan_note_amended emptyMemState emptyDbState 1 7 "follow up" 30
    (by decide) (by decide) (by decide)

end Vawc
